import Mathlib

/-!
Verification of the experiment-tracking tool (`src/main/main.go`) against its
natural-language specification.  The Go functions relevant to the claims are
shallowly embedded as executable Lean definitions: remote commands (ssh,
squeue, sacct, find, rsync) are abstracted as oracles passed in as arguments,
machine strings are Lean `String`s manipulated through explicit `List Char`
operations mirroring the Go `strings` package (ASCII model of whitespace and
case, which is what all inputs in this program use), and the SQLite store is
modelled as an explicit record of performed writes.
-/

namespace Exp

/-- ASCII model of the whitespace class used by Go `strings.TrimSpace`,
`strings.Fields` (space, tab, newline, vertical tab, form feed, carriage
return). -/
def goIsSpace (c : Char) : Bool :=
  c = ' ' || c = '\t' || c = '\n' || c = '\x0b' || c = '\x0c' || c = '\r'

/-- Go `strings.TrimSpace`: drop leading and trailing whitespace. -/
def goTrimSpace (s : String) : String :=
  String.mk (((s.data.dropWhile goIsSpace).reverse.dropWhile goIsSpace).reverse)

/-- Go `strings.ToUpper` restricted to ASCII letters (the only letters the
scheduler emits). -/
def goToUpper (s : String) : String :=
  String.mk (s.data.map Char.toUpper)

/-- Go `strings.Trim(s, "+")`: drop leading and trailing `+` characters. -/
def goTrimPlus (s : String) : String :=
  String.mk (((s.data.dropWhile (fun c => c = '+')).reverse.dropWhile
    (fun c => c = '+')).reverse)

/-- Go `strings.Split` with a one-character separator; always returns at
least one (possibly empty) piece. -/
def goSplitChar (sep : Char) : List Char → List (List Char)
  | [] => [[]]
  | c :: rest =>
    if c = sep then [] :: goSplitChar sep rest
    else
      match goSplitChar sep rest with
      | [] => [[c]]
      | w :: ws => (c :: w) :: ws

/-- Go `strings.Index(s, " ")` specialised to a one extracted character:
index of the first occurrence, if any. -/
def goIndexOfChar (x : Char) : List Char → Option Nat
  | [] => none
  | c :: rest =>
    if c = x then some 0 else (goIndexOfChar x rest).map (· + 1)

/-- Everything before the first occurrence of `x` (the whole list when `x`
does not occur): the spec-side reading of "strip everything after the first
space". -/
def takeBeforeChar (x : Char) : List Char → List Char
  | [] => []
  | c :: rest => if c = x then [] else c :: takeBeforeChar x rest

/-- Accumulator worker for Go `strings.Fields`: split around runs of
whitespace, dropping empty fields. -/
def fieldsAux : List Char → List Char → List (List Char)
  | acc, [] => if acc.isEmpty then [] else [acc.reverse]
  | acc, c :: rest =>
    if goIsSpace c then
      if acc.isEmpty then fieldsAux [] rest
      else acc.reverse :: fieldsAux [] rest
    else fieldsAux (c :: acc) rest

/-- Go `strings.Fields`: whitespace-delimited tokens of a string. -/
def goFields (s : String) : List String :=
  (fieldsAux [] s.data).map String.mk

/-- Does the string start with a slash?  Go `strings.HasPrefix(p, "/")`. -/
def goHasSlashHead (s : String) : Bool :=
  match s.data with
  | [] => false
  | c :: _ => c = '/'

/-- Segment worker for Go `filepath.Clean` (unix rules): `rooted` records a
leading slash, `acc` holds output segments in reverse. -/
def cleanSegsAux (rooted : Bool) : List String → List String → List String
  | acc, [] => acc.reverse
  | acc, seg :: rest =>
    if seg = "" || seg = "." then cleanSegsAux rooted acc rest
    else if seg = ".." then
      match acc with
      | [] =>
        if rooted then cleanSegsAux rooted [] rest
        else cleanSegsAux rooted [".."] rest
      | a :: more =>
        if a = ".." then cleanSegsAux rooted (".." :: a :: more) rest
        else cleanSegsAux rooted more rest
    else cleanSegsAux rooted (seg :: acc) rest

/-- Go `filepath.Clean` for unix paths: collapse slashes, resolve `.` and
`..`, empty result becomes `.` (or `/` when rooted). -/
def goClean (p : String) : String :=
  if p = "" then "."
  else
    let rooted := goHasSlashHead p
    let segs := (goSplitChar '/' p.data).map String.mk
    let out := cleanSegsAux rooted [] segs
    let joined := String.intercalate "/" out
    if rooted then (if joined = "" then "/" else "/" ++ joined)
    else (if joined = "" then "." else joined)

/-- Go `filepath.Join(root, rel)` as used by `patternMatches`: concatenate
with a slash and clean (Go joins non-empty elements with `/` then cleans;
for the arguments reaching this call the two formulations agree). -/
def goJoin (root rel : String) : String :=
  goClean (root ++ "/" ++ rel)

/-- Go `filepath.Base`: drop trailing slashes, then take the part after the
last slash; all-slash input gives `/`, empty input gives `.`. -/
def goBase (p : String) : String :=
  if p = "" then "."
  else
    let kept := (p.data.reverse.dropWhile (fun c => c = '/')).takeWhile
      (fun c => c ≠ '/')
    if kept.isEmpty then "/" else String.mk kept.reverse

/-- The fixed active set of `isActiveStatus` (the cases of its `switch`). -/
def activeStatuses : List String :=
  ["PENDING", "CONFIGURING", "RUNNING", "COMPLETING", "SUSPENDED",
   "RESV_DEL_HOLD", "SPECIAL_EXIT"]

/-- `isActiveStatus` from the source: upper-case the trimmed status and test
membership in the seven active scheduler states. -/
def isActiveStatus (status : String) : Bool :=
  decide (goToUpper (goTrimSpace status) ∈ activeStatuses)

/-- The mutable experiment fields written by the status-polling loop
(`job_status` and `completed_at` columns updated by
`updateExperimentStatus`).  Timestamps are modelled as the tick index of the
loop iteration that produced them. -/
structure MonitorState where
  jobStatus : String
  completedAt : Option Nat
deriving DecidableEq, Repr

/-- The body of `monitorExperiment`'s polling loop, driven by a finite trace
of status-query outcomes (`Except.error` = transport/command failure,
`Except.ok` = the queried status string).  Returns the final stored state, a
flag recording whether the loop exited through the terminal branch, and the
ordered list of store writes `(status, completion timestamp?)` performed by
`updateExperimentStatus` calls.  Store writes themselves are assumed to
succeed; the sleeps between ticks are modelled by the tick counter. -/
def monitorExperiment : MonitorState → List (Except String String) → Nat →
    MonitorState × Bool × List (String × Option Nat)
  | st, [], _ => (st, false, [])
  | st, q :: qs, t =>
    match q with
    | Except.error _ => monitorExperiment st qs (t + 1)
    | Except.ok status =>
      if isActiveStatus status then
        let r := monitorExperiment { st with jobStatus := status } qs (t + 1)
        (r.1, r.2.1, (status, none) :: r.2.2)
      else
        ({ jobStatus := status, completedAt := some t }, true,
         [(status, none), (status, some t)])

/-- `runSqueue` from the source, with the ssh invocation abstracted as its
outcome `r` (`Except.error` = non-zero exit, carrying the message text;
`Except.ok` = combined output).  Trims the output; an empty output yields an
empty status, otherwise the trimmed first line. -/
def runSqueue (r : Except String String) : Except String String :=
  match r with
  | Except.error e => Except.error ("squeue: " ++ e)
  | Except.ok out =>
    let text := goTrimSpace out
    if text = "" then Except.ok ""
    else
      match goSplitChar '\n' text.data with
      | [] => Except.ok ""
      | l :: _ => Except.ok (goTrimSpace (String.mk l))

/-- The per-line normalization inside `runSacct`'s loop: cut the line at the
first space (`strings.Index`), then `strings.Trim(state, "+")`. -/
def sacctNormalizeLine (line : String) : String :=
  let state :=
    match goIndexOfChar ' ' line.data with
    | some i => String.mk (line.data.take i)
    | none => line
  goTrimPlus state

/-- The line scan of `runSacct`: the first line that is non-empty after
trimming is normalized and returned; if every line is blank the result is
the empty string. -/
def sacctFirstState : List String → String
  | [] => ""
  | line :: rest =>
    let t := goTrimSpace line
    if t = "" then sacctFirstState rest else sacctNormalizeLine t

/-- `runSacct` from the source, with the ssh invocation abstracted as its
outcome `r`. -/
def runSacct (r : Except String String) : Except String String :=
  match r with
  | Except.error e => Except.error ("sacct: " ++ e)
  | Except.ok out =>
    Except.ok (sacctFirstState
      ((goSplitChar '\n' (goTrimSpace out).data).map String.mk))

/-- `queryJobStatus` from the source.  `sq` and `sa` are the outcomes of the
squeue and sacct invocations that would be issued; the two booleans in the
result record whether each view was actually consulted. -/
def queryJobStatus (jobID : String) (sq sa : Except String String) :
    Except String String × Bool × Bool :=
  if jobID = "" then (Except.ok "UNKNOWN", false, false)
  else
    match runSqueue sq with
    | Except.error e => (Except.error e, true, false)
    | Except.ok status =>
      if status ≠ "" then (Except.ok status, true, false)
      else
        match runSacct sa with
        | Except.error _ => (Except.ok "UNKNOWN", true, true)
        | Except.ok status2 =>
          if status2 ≠ "" then (Except.ok status2, true, true)
          else (Except.ok "UNKNOWN", true, true)

/-- `submitSbatchSSH` from the source, with the single ssh/sbatch invocation
abstracted as its outcome (`Except.error` = non-zero exit, `Except.ok` =
combined output).  The job id is the last whitespace field of the output. -/
def submitSbatchSSH (r : Except String String) : Except String String :=
  match r with
  | Except.error e => Except.error ("ssh/sbatch failed: " ++ e)
  | Except.ok out =>
    match (goFields out).getLast? with
    | none => Except.error ("unable to parse sbatch output: " ++ out)
    | some tok => Except.ok tok

/-- The submission step of `cmdRun`: `submitSbatchSSH` issues exactly one
remote invocation (the first oracle value) and is never retried; the second
component counts invocations. -/
def submitSbatchOnce (oracle : Nat → Except String String) :
    Except String String × Nat :=
  (submitSbatchSSH (oracle 0), 1)

/-- The inner retry loop of `fetchArtifacts` for one listing strategy:
`oracle i` is the outcome of the i-th `listRemoteFiles` call of this
strategy, `fuel` the remaining attempts (6 at the top).  Result components:
the outcome (a listing error aborts the fetch and is returned as-is; empty
lists after all attempts yield `ok []`), the number of listing calls made,
and the total seconds slept (`time.Sleep(3 * time.Second)` before every
attempt after the first). -/
def tryFrom (oracle : Nat → Except String (List String)) :
    Nat → Nat → Except String (List String) × Nat × Nat
  | _, 0 => (Except.ok [], 0, 0)
  | i, fuel + 1 =>
    match oracle i with
    | Except.error e => (Except.error e, 1, 0)
    | Except.ok files =>
      if files.isEmpty then
        let r := tryFrom oracle (i + 1) fuel
        (r.1, r.2.1 + 1, if r.2.1 = 0 then 0 else 3 + r.2.2)
      else (Except.ok files, 1, 0)

/-- The two-strategy discovery loop of `fetchArtifacts` (its `attempts`
slice plus the goto-terminated double loop): when `sinceStart` is set the
time-filtered strategy (oracle `f`) runs first, then the unfiltered strategy
(oracle `u`); each strategy gets up to 6 attempts, and a non-empty result
(or a listing error) stops everything.  Result components: outcome, number
of filtered listing calls, number of unfiltered listing calls. -/
def fetchDiscover (f u : Nat → Except String (List String))
    (sinceStart : Bool) : Except String (List String) × Nat × Nat :=
  if sinceStart then
    let rf := tryFrom f 0 6
    match rf.1 with
    | Except.error e => (Except.error e, rf.2.1, 0)
    | Except.ok files =>
      if files.isEmpty then
        let ru := tryFrom u 0 6
        (ru.1, rf.2.1, ru.2.1)
      else (Except.ok files, rf.2.1, 0)
  else
    let ru := tryFrom u 0 6
    (ru.1, 0, ru.2.1)

/-- The expression-compilation loop of `fetchArtifacts`: trim each entry,
skip blanks, and fail on the first expression the regexp engine rejects
(`compile p = none` models `regexp.Compile` returning an error). -/
def compilePatterns (compile : String → Option (String → Bool)) :
    List String → Except String (List (String → Bool))
  | [] => Except.ok []
  | p :: rest =>
    let q := goTrimSpace p
    if q = "" then compilePatterns compile rest
    else
      match compile q with
      | none => Except.error ("compile pattern " ++ q)
      | some re =>
        match compilePatterns compile rest with
        | Except.error e => Except.error e
        | Except.ok res => Except.ok (re :: res)

/-- `patternMatches` from the source: an empty expression list accepts
everything; otherwise some expression must match the relative path, its
basename, or the path joined onto the source root.  Compiled regular
expressions are abstracted as their string predicates. -/
def patternMatches (res : List (String → Bool)) (remoteRoot rel : String) :
    Bool :=
  if res.isEmpty then true
  else
    let full := if remoteRoot = "" then rel else goJoin remoteRoot rel
    let base := goBase rel
    res.any (fun re => re rel || re base || re full)

/-- `fetchArtifacts` from the source for one artifact source.  Remote and
local effects are abstracted: `compile` models `regexp.Compile`, `f`/`u` the
time-filtered and unfiltered `listRemoteFiles` outcomes per attempt,
`transfer` the `rsyncFiles` invocation; `createdAtKnown` models
`!exp.CreatedAt.IsZero()`, and `expandLocalPath` is modelled as the identity
on the destination (its home-directory expansion is irrelevant to the
claims).  Result components: the outcome (`ok` carries the relative paths
acted upon, `[]` when nothing was copied), the total number of remote
listing calls performed, and the number of transfer invocations. -/
def fetchArtifacts (compile : String → Option (String → Bool))
    (f u : Nat → Except String (List String))
    (transfer : List String → Except String Unit)
    (remotePath destDir : String) (patterns : List String)
    (sinceStart createdAtKnown dryRun : Bool) :
    Except String (List String) × Nat × Nat :=
  if remotePath = "" then (Except.error "remote-path is required", 0, 0)
  else if !goHasSlashHead remotePath then
    (Except.error
      "remote-path must be absolute so rsync can address the files precisely",
     0, 0)
  else if destDir = "" then
    (Except.error "destination directory is required", 0, 0)
  else if sinceStart && !createdAtKnown then
    (Except.error "experiment does not have a recorded start time", 0, 0)
  else
    let disc := fetchDiscover f u sinceStart
    let calls := disc.2.1 + disc.2.2
    match disc.1 with
    | Except.error e => (Except.error e, calls, 0)
    | Except.ok files =>
      if files.isEmpty then (Except.ok [], calls, 0)
      else
        match compilePatterns compile patterns with
        | Except.error e => (Except.error e, calls, 0)
        | Except.ok res =>
          let filtered := files.filter (fun rel =>
            patternMatches res remotePath rel)
          if filtered.isEmpty then (Except.ok [], calls, 0)
          else if dryRun then (Except.ok filtered, calls, 0)
          else
            match transfer filtered with
            | Except.error e => (Except.error e, calls, 1)
            | Except.ok _ => (Except.ok filtered, calls, 1)

/-- `sinceStartGracePeriod` from the source (`2 * time.Minute`), in
seconds. -/
def sinceStartGracePeriodSeconds : Int := 2 * 60

/-- The modification-time cutoff computed inside `listRemoteFiles`:
`since.UTC().Add(-sinceStartGracePeriod).Unix()`, with times modelled as UTC
epoch seconds. -/
def listRemoteFilesCutoff (since : Int) : Int :=
  since - sinceStartGracePeriodSeconds

/-- `shellQuote` from the source: single-quote a string, escaping embedded
single quotes with the `\x27"\x27"\x27` idiom. -/
def shellQuoteChars : List Char → List Char
  | [] => []
  | c :: rest =>
    if c = '\x27' then
      '\x27' :: '"' :: '\x27' :: '"' :: '\x27' :: shellQuoteChars rest
    else c :: shellQuoteChars rest

/-- `shellQuote` from the source. -/
def shellQuote (s : String) : String :=
  if s = "" then "\x27\x27"
  else "\x27" ++ String.mk (shellQuoteChars s.data) ++ "\x27"

/-- The remote command string built by `listRemoteFiles`; `since = none`
models a zero `time.Time` (no filter requested). -/
def listRemoteFilesCommand (root : String) (since : Option Int) : String :=
  "echo Remote initial PWD: \"$PWD\" >&2 && cd " ++ shellQuote root ++
    " && echo Remote PWD after cd: \"$PWD\" >&2 && find . -type f" ++
    (match since with
     | none => ""
     | some t => " -newermt " ++
         shellQuote ("@" ++ toString (listRemoteFilesCutoff t))) ++
    " -print"

/-- An artifact source: remote absolute path plus filter-pattern strings. -/
structure ArtifactSource where
  Path : String
  Patterns : List String
deriving DecidableEq, Repr

/-- The experiment fields read by `EffectiveArtifactSources` (the remaining
fields of the Go struct do not influence the claims about it). -/
structure Experiment where
  ArtifactSources : List ArtifactSource
  ArtifactRemote : String
  ArtifactPattern : String
deriving DecidableEq, Repr

/-- `copyArtifactSources` from the source: a value-preserving deep copy. -/
def copyArtifactSources (src : List ArtifactSource) : List ArtifactSource :=
  if src.isEmpty then []
  else src.map (fun s => { Path := s.Path, Patterns := s.Patterns })

/-- `splitPatterns` from the source: trim the combined string, split on
newlines, trim every line, and drop the blank ones. -/
def splitPatterns (s : String) : List String :=
  let t := goTrimSpace s
  if t = "" then []
  else
    ((goSplitChar '\n' t.data).map (fun l => goTrimSpace (String.mk l))).filter
      (fun l => l ≠ "")

/-- `EffectiveArtifactSources` from the source: explicitly configured
sources win; otherwise a non-empty legacy remote path synthesizes a single
source from the legacy combined pattern string. -/
def EffectiveArtifactSources (exp : Experiment) : List ArtifactSource :=
  if !exp.ArtifactSources.isEmpty then copyArtifactSources exp.ArtifactSources
  else if exp.ArtifactRemote = "" then []
  else [{ Path := exp.ArtifactRemote,
          Patterns := splitPatterns exp.ArtifactPattern }]

/-- Stated from the spec sentence of claim C4 for comparison with the code:
normalization that strips everything after the first space and trims ONLY
the trailing `+` characters. -/
def sacctNormSpecTrailingOnly (line : String) : String :=
  let cut := String.mk (takeBeforeChar ' ' line.data)
  String.mk ((cut.data.reverse.dropWhile (fun c => c = '+')).reverse)

/-- Stated from the spec sentence of claim C9 for comparison with the code:
the legacy combined pattern string split on newlines with blank
(whitespace-only) entries dropped, and no per-entry trimming. -/
def splitOnNewlinesDroppingBlank (s : String) : List String :=
  ((goSplitChar '\n' s.data).map String.mk).filter
    (fun l => goTrimSpace l ≠ "")

/-! ## Helper lemmas -/

theorem copyArtifactSources_eq (src : List ArtifactSource) :
    copyArtifactSources src = src := by
  cases src with
  | nil => rfl
  | cons a l =>
    have h : (fun s : ArtifactSource =>
        ({ Path := s.Path, Patterns := s.Patterns } : ArtifactSource)) = id :=
      funext (fun s => rfl)
    simp [copyArtifactSources, h]

theorem goIndexOfChar_take (x : Char) (cs : List Char) :
    (match goIndexOfChar x cs with
     | some i => cs.take i
     | none => cs) = takeBeforeChar x cs := by
  induction cs with
  | nil => rfl
  | cons c rest ih =>
    simp only [goIndexOfChar, takeBeforeChar]
    by_cases hc : c = x
    · rw [if_pos hc, if_pos hc]
      rfl
    · rw [if_neg hc, if_neg hc]
      cases hrec : goIndexOfChar x rest with
      | none =>
        rw [hrec] at ih
        show c :: rest = c :: takeBeforeChar x rest
        exact congrArg (c :: ·) ih
      | some j =>
        rw [hrec] at ih
        show c :: rest.take j = c :: takeBeforeChar x rest
        exact congrArg (c :: ·) ih

theorem monitorExperiment_all_errors (e : String) (n : Nat) :
    ∀ (st : MonitorState) (t : Nat),
      monitorExperiment st (List.replicate n (Except.error e)) t =
        (st, false, []) := by
  induction n with
  | zero => intro st t; rfl
  | succ m ih =>
    intro st t
    simpa [List.replicate, monitorExperiment] using ih st (t + 1)

/-! ## C1 -/

/-- C1: the status classifier returns active exactly when the
whitespace-trimmed, upper-cased status string belongs to the fixed set
{PENDING, CONFIGURING, RUNNING, COMPLETING, SUSPENDED, RESV_DEL_HOLD,
SPECIAL_EXIT}; every other string, including the empty string, arbitrary
garbage and the UNKNOWN sentinel, classifies as terminal. -/
theorem isActiveStatus_spec (status : String) :
    (isActiveStatus status = true ↔
      goToUpper (goTrimSpace status) ∈ activeStatuses)
    ∧ isActiveStatus "" = false
    ∧ isActiveStatus "UNKNOWN" = false
    ∧ isActiveStatus "unknown" = false
    ∧ isActiveStatus "garbage!!" = false
    ∧ isActiveStatus "  pending " = true
    ∧ isActiveStatus "RESV_DEL_HOLD" = true := by
  refine ⟨?_, by decide, by decide, by decide, by decide, by decide, by decide⟩
  simp [isActiveStatus]

/-! ## C10 -/

/-- C10: a status query with an empty job identifier returns UNKNOWN with no
error and consults neither the queue view nor the accounting view. -/
theorem queryJobStatus_empty_jobid (sq sa : Except String String) :
    queryJobStatus "" sq sa = (Except.ok "UNKNOWN", false, false) := by
  simp [queryJobStatus]

/-! ## C7 -/

/-- C7: for every requested since timestamp T (UTC epoch seconds), the
modification-time cutoff passed to the remote listing command is exactly
T minus 2 minutes. -/
theorem listRemoteFiles_cutoff_spec (root : String) (t : Int) :
    listRemoteFilesCutoff t = t - 2 * 60
    ∧ sinceStartGracePeriodSeconds = 120
    ∧ listRemoteFilesCommand root (some t) =
        "echo Remote initial PWD: \"$PWD\" >&2 && cd " ++ shellQuote root ++
          " && echo Remote PWD after cd: \"$PWD\" >&2 && find . -type f" ++
          (" -newermt " ++ shellQuote ("@" ++ toString (t - 120))) ++
          " -print" := by
  refine ⟨by simp [listRemoteFilesCutoff, sinceStartGracePeriodSeconds], rfl, ?_⟩
  have h : listRemoteFilesCutoff t = t - 120 := by
    simp [listRemoteFilesCutoff, sinceStartGracePeriodSeconds]
  simp [listRemoteFilesCommand, h]

/-! ## C8 -/

/-- C8: job submission invokes the remote submission command once and never
retries; a non-zero exit or an output with zero whitespace tokens is a fatal
error, and otherwise the job identifier is the last whitespace-delimited
token of the entire combined output. -/
theorem submitSbatchSSH_spec (oracle : Nat → Except String String)
    (out e tok : String) (toks : List String) :
    (submitSbatchOnce oracle).2 = 1
    ∧ submitSbatchOnce oracle = (submitSbatchSSH (oracle 0), 1)
    ∧ submitSbatchSSH (Except.error e) =
        Except.error ("ssh/sbatch failed: " ++ e)
    ∧ (goFields out = [] →
        submitSbatchSSH (Except.ok out) =
          Except.error ("unable to parse sbatch output: " ++ out))
    ∧ (goFields out = toks ++ [tok] →
        submitSbatchSSH (Except.ok out) = Except.ok tok) := by
  refine ⟨rfl, rfl, rfl, ?_, ?_⟩
  · intro h
    simp [submitSbatchSSH, h]
  · intro h
    simp [submitSbatchSSH, h]

/-- Witness for C8: the typical sbatch output parses to its last token. -/
theorem submitSbatchSSH_spec_witness :
    submitSbatchSSH (Except.ok "Submitted batch job 2723147") =
      Except.ok "2723147" :=
  (submitSbatchSSH_spec (fun _ => Except.ok "")
    "Submitted batch job 2723147" "" "2723147"
    ["Submitted", "batch", "job"]).2.2.2.2 (by decide)

/-! ## C2 -/

/-- C2: in every iteration of the polling loop, a failed status query leaves
the stored status unchanged and polling simply continues with the remaining
trace (unbounded retry: a trace of only failures never errors, never exits
and performs no store write); a successful query persists the new status
immediately; and a terminal status additionally persists a completion
timestamp and ends the loop, consuming none of the remaining trace. -/
theorem monitorExperiment_spec (st : MonitorState)
    (qs : List (Except String String)) (t n : Nat) (e status : String) :
    monitorExperiment st (Except.error e :: qs) t =
      monitorExperiment st qs (t + 1)
    ∧ monitorExperiment st (List.replicate n (Except.error e)) t =
        (st, false, [])
    ∧ (isActiveStatus status = true →
        monitorExperiment st (Except.ok status :: qs) t =
          ((monitorExperiment { st with jobStatus := status } qs (t + 1)).1,
           (monitorExperiment { st with jobStatus := status } qs (t + 1)).2.1,
           (status, none) ::
             (monitorExperiment { st with jobStatus := status } qs
               (t + 1)).2.2))
    ∧ (isActiveStatus status = false →
        monitorExperiment st (Except.ok status :: qs) t =
          ({ jobStatus := status, completedAt := some t }, true,
           [(status, none), (status, some t)])) := by
  refine ⟨rfl, monitorExperiment_all_errors e n st t, ?_, ?_⟩
  · intro h
    simp [monitorExperiment, h]
  · intro h
    simp [monitorExperiment, h]

/-- Witness for C2: a terminal COMPLETED reply ends the loop at once,
persisting the status and the completion tick and ignoring the rest of the
trace. -/
theorem monitorExperiment_spec_witness :
    monitorExperiment { jobStatus := "SUBMITTED", completedAt := none }
        [Except.ok "COMPLETED", Except.ok "RUNNING"] 0 =
      ({ jobStatus := "COMPLETED", completedAt := some 0 }, true,
       [("COMPLETED", none), ("COMPLETED", some 0)]) :=
  (monitorExperiment_spec { jobStatus := "SUBMITTED", completedAt := none }
    [Except.ok "RUNNING"] 0 2 "err" "COMPLETED").2.2.2 (by decide)

/-! ## C4 -/

/-- C4 (amended): the two-tier lookup propagates a queue-view failure as a
hard error; an empty queue-view result with a successful queue command falls
back to the accounting view; an accounting-view failure is reported as
UNKNOWN rather than propagated; both views empty yields UNKNOWN; and every
accounting-view state line is normalized by stripping everything after the
first space and trimming leading AND trailing plus characters. -/
theorem queryJobStatus_two_tier (jobID : String)
    (sq sa : Except String String) (e line : String) (hid : jobID ≠ "") :
    (runSqueue sq = Except.error e →
      queryJobStatus jobID sq sa = (Except.error e, true, false))
    ∧ (∀ s, runSqueue sq = Except.ok s → s ≠ "" →
        queryJobStatus jobID sq sa = (Except.ok s, true, false))
    ∧ (runSqueue sq = Except.ok "" → (queryJobStatus jobID sq sa).2.2 = true)
    ∧ (runSqueue sq = Except.ok "" → runSacct sa = Except.error e →
        queryJobStatus jobID sq sa = (Except.ok "UNKNOWN", true, true))
    ∧ (runSqueue sq = Except.ok "" → runSacct sa = Except.ok "" →
        queryJobStatus jobID sq sa = (Except.ok "UNKNOWN", true, true))
    ∧ sacctNormalizeLine line =
        goTrimPlus (String.mk (takeBeforeChar ' ' line.data)) := by
  refine ⟨?_, ?_, ?_, ?_, ?_, ?_⟩
  · intro h
    simp [queryJobStatus, hid, h]
  · intro s h hs
    simp [queryJobStatus, hid, h, hs]
  · intro h
    simp only [queryJobStatus, if_neg hid, h]
    cases hsa : runSacct sa with
    | error e2 => simp [hsa]
    | ok s2 =>
      by_cases hs2 : s2 = "" <;> simp [hsa, hs2]
  · intro h hsa
    simp [queryJobStatus, hid, h, hsa]
  · intro h hsa
    simp [queryJobStatus, hid, h, hsa]
  · have key := goIndexOfChar_take ' ' line.data
    unfold sacctNormalizeLine
    cases hidx : goIndexOfChar ' ' line.data with
    | none =>
      rw [hidx] at key
      exact congrArg goTrimPlus (congrArg String.mk key)
    | some i =>
      rw [hidx] at key
      exact congrArg goTrimPlus (congrArg String.mk key)

/-- Witness for C4: job id 123, an empty queue view and a failing accounting
view produce UNKNOWN after consulting both views. -/
theorem queryJobStatus_two_tier_witness :
    queryJobStatus "123" (Except.ok "") (Except.error "boom") =
      (Except.ok "UNKNOWN", true, true) :=
  (queryJobStatus_two_tier "123" (Except.ok "") (Except.error "boom")
    "sacct: boom" "" (by decide)).2.2.2.1 rfl rfl

/-- Counterexample for C4 as stated: the code trims `+` from both ends of an
accounting state (Go `strings.Trim`), so on the state string `+CANCELLED`
it returns `CANCELLED`, while the claimed normalization (trailing `+`
trimming only) keeps the leading plus. -/
theorem queryJobStatus_sacct_counterexample :
    runSacct (Except.ok "+CANCELLED") = Except.ok "CANCELLED"
    ∧ sacctNormSpecTrailingOnly "+CANCELLED" = "+CANCELLED"
    ∧ ("CANCELLED" : String) ≠ "+CANCELLED" := by
  refine ⟨rfl, rfl, by decide⟩

/-! ## C5 -/

/-- C5: an empty compiled-expression list accepts every path; a non-empty
list matches a discovered relative path exactly when some expression matches
the relative path, its basename, or the path joined onto the (absolute,
hence non-empty) source root. -/
theorem patternMatches_spec (res : List (String → Bool))
    (root rel : String) :
    patternMatches [] root rel = true
    ∧ (res.isEmpty = false → root ≠ "" →
        (patternMatches res root rel = true ↔
          ∃ re, re ∈ res ∧ (re rel = true ∨ re (goBase rel) = true ∨
            re (goJoin root rel) = true))) := by
  refine ⟨rfl, ?_⟩
  intro h hroot
  simp [patternMatches, h, hroot, List.any_eq_true, or_assoc]

/-- Witness for C5: an expression that matches only the basename
`c.json` (not the relative path `sub/c.json`) still makes the path
match. -/
theorem patternMatches_spec_witness :
    patternMatches [fun s => decide (s = "c.json")] "/data/out" "sub/c.json"
      = true
    ∧ (fun s => decide (s = "c.json")) "sub/c.json" = false := by
  refine ⟨?_, by decide⟩
  exact ((patternMatches_spec [fun s => decide (s = "c.json")] "/data/out"
    "sub/c.json").2 rfl (by decide)).mpr
    ⟨fun s => decide (s = "c.json"), by simp, Or.inr (Or.inl (by decide))⟩

/-! ## C9 -/

/-- C9 (amended): with no explicitly configured sources, a present legacy
remote path synthesizes exactly one source whose path is the legacy remote
path and whose patterns are the legacy combined pattern string split on
newlines with every entry whitespace-trimmed and blank entries dropped; with
no legacy remote path the result is empty; an explicitly configured
non-empty source list is returned unchanged. -/
theorem EffectiveArtifactSources_spec (exp : Experiment) (s : String) :
    (exp.ArtifactSources ≠ [] →
      EffectiveArtifactSources exp = exp.ArtifactSources)
    ∧ (exp.ArtifactSources = [] → exp.ArtifactRemote = "" →
      EffectiveArtifactSources exp = [])
    ∧ (exp.ArtifactSources = [] → exp.ArtifactRemote ≠ "" →
      EffectiveArtifactSources exp =
        [{ Path := exp.ArtifactRemote,
           Patterns := splitPatterns exp.ArtifactPattern }])
    ∧ splitPatterns s =
        ((goSplitChar '\n' (goTrimSpace s).data).map
          (fun l => goTrimSpace (String.mk l))).filter (fun l => l ≠ "") := by
  refine ⟨?_, ?_, ?_, ?_⟩
  · intro h
    simp [EffectiveArtifactSources, h, copyArtifactSources_eq]
  · intro h hr
    simp [EffectiveArtifactSources, h, hr]
  · intro h hr
    simp [EffectiveArtifactSources, h, hr]
  · by_cases h : goTrimSpace s = ""
    · simp [splitPatterns, h]
      decide
    · simp [splitPatterns, h]

/-- Witness for C9: explicit sources win; a legacy pair synthesizes one
source. -/
theorem EffectiveArtifactSources_spec_witness :
    EffectiveArtifactSources
        { ArtifactSources := [{ Path := "/x", Patterns := ["p"] }],
          ArtifactRemote := "/data", ArtifactPattern := "q" } =
      [{ Path := "/x", Patterns := ["p"] }]
    ∧ EffectiveArtifactSources
        { ArtifactSources := [], ArtifactRemote := "",
          ArtifactPattern := "q" } = [] := by
  constructor
  · exact (EffectiveArtifactSources_spec
      { ArtifactSources := [{ Path := "/x", Patterns := ["p"] }],
        ArtifactRemote := "/data", ArtifactPattern := "q" } "").1 (by decide)
  · exact (EffectiveArtifactSources_spec
      { ArtifactSources := [], ArtifactRemote := "",
        ArtifactPattern := "q" } "").2.1 rfl rfl

/-- Counterexample for C9 as stated: the synthesized patterns for the legacy
string consisting of the two lines `a ` and `b` are `["a", "b"]` — each
entry is whitespace-trimmed — whereas splitting on newlines and merely
dropping blank entries would keep the trailing space of the first entry. -/
theorem EffectiveArtifactSources_counterexample :
    EffectiveArtifactSources
        { ArtifactSources := [], ArtifactRemote := "/data",
          ArtifactPattern := "a \nb" } =
      [{ Path := "/data", Patterns := ["a", "b"] }]
    ∧ splitOnNewlinesDroppingBlank "a \nb" = ["a ", "b"]
    ∧ (["a", "b"] : List String) ≠ ["a ", "b"] := by
  refine ⟨by decide, by decide, by decide⟩

/-! ## C3 -/

theorem tryFrom_calls_le (o : Nat → Except String (List String)) :
    ∀ (fuel i : Nat), (tryFrom o i fuel).2.1 ≤ fuel := by
  intro fuel
  induction fuel with
  | zero => intro i; simp [tryFrom]
  | succ m ih =>
    intro i
    simp only [tryFrom]
    cases ho : o i with
    | error e => simp
    | ok files =>
      cases files with
      | nil =>
        simp only [List.isEmpty_nil, if_pos]
        have := ih (i + 1)
        omega
      | cons a l => simp

theorem tryFrom_calls_pos (o : Nat → Except String (List String))
    (i fuel : Nat) (h : 0 < fuel) : 1 ≤ (tryFrom o i fuel).2.1 := by
  obtain ⟨m, rfl⟩ : ∃ m, fuel = m + 1 := ⟨fuel - 1, by omega⟩
  simp only [tryFrom]
  cases ho : o i with
  | error e => simp
  | ok files =>
    cases files with
    | nil =>
      simp only [List.isEmpty_nil, if_pos]
      omega
    | cons a l => simp

theorem tryFrom_all_empty (o : Nat → Except String (List String))
    (h : ∀ j, o j = Except.ok []) :
    ∀ (fuel i : Nat),
      tryFrom o i fuel = (Except.ok [], fuel, 3 * (fuel - 1)) := by
  intro fuel
  induction fuel with
  | zero => intro i; rfl
  | succ m ih =>
    intro i
    simp only [tryFrom, h i, List.isEmpty_nil, if_pos, ih (i + 1)]
    refine congrArg (fun d => (Except.ok [], m + 1, d)) ?_
    cases m with
    | zero => rfl
    | succ c =>
      rw [if_neg (Nat.succ_ne_zero c)]
      omega

theorem tryFrom_delay (o : Nat → Except String (List String)) :
    ∀ (fuel i : Nat),
      (tryFrom o i fuel).2.2 = 3 * ((tryFrom o i fuel).2.1 - 1) := by
  intro fuel
  induction fuel with
  | zero => intro i; rfl
  | succ m ih =>
    intro i
    simp only [tryFrom]
    cases ho : o i with
    | error e => simp
    | ok files =>
      cases files with
      | cons a l => simp
      | nil =>
        simp only [List.isEmpty_nil, if_pos]
        have := ih (i + 1)
        split <;> omega

theorem tryFrom_first_nonempty (o : Nat → Except String (List String))
    (fs : List String) (hfs : fs ≠ []) :
    ∀ (i base fuel : Nat), (∀ j, j < i → o (base + j) = Except.ok []) →
      o (base + i) = Except.ok fs → i < fuel →
      tryFrom o base fuel = (Except.ok fs, i + 1, 3 * i) := by
  have hemp : fs.isEmpty = false := by
    cases fs with
    | nil => exact absurd rfl hfs
    | cons a l => rfl
  intro i
  induction i with
  | zero =>
    intro base fuel h0 hi hlt
    obtain ⟨m, rfl⟩ : ∃ m, fuel = m + 1 := ⟨fuel - 1, by omega⟩
    have hb : o base = Except.ok fs := by simpa using hi
    simp [tryFrom, hb, hemp]
  | succ k ih =>
    intro base fuel h0 hi hlt
    obtain ⟨m, rfl⟩ : ∃ m, fuel = m + 1 := ⟨fuel - 1, by omega⟩
    have hb : o base = Except.ok [] := by
      simpa using h0 0 (Nat.succ_pos k)
    have ihr := ih (base + 1) m
      (fun j hj => by
        have hx := h0 (j + 1) (by omega)
        rwa [show base + (j + 1) = base + 1 + j by omega] at hx)
      (by rwa [show base + (k + 1) = base + 1 + k by omega] at hi)
      (by omega)
    simp only [tryFrom, hb, List.isEmpty_nil, if_pos, ihr]
    refine congrArg (fun d => (Except.ok fs, k + 1 + 1, d)) ?_
    rw [if_neg (Nat.succ_ne_zero k)]
    omega

/-- C3: artifact discovery tries the time-filtered strategy first (when
requested) and then the unfiltered one; each strategy makes at most 6
listing attempts with a 3-second pause between consecutive attempts (total
sleep is 3 times one less than the attempts made); the first attempt across
both strategies that returns at least one file stops all further attempts;
and if every attempt of every strategy returns empty, discovery returns an
empty file set without error after exactly 6 attempts per strategy. -/
theorem fetchArtifacts_retry_policy
    (f u : Nat → Except String (List String)) (ss : Bool) (i k : Nat)
    (fs gs : List String) :
    (fetchDiscover f u ss).2.1 ≤ 6
    ∧ (fetchDiscover f u ss).2.2 ≤ 6
    ∧ ((∀ j, f j = Except.ok []) → (∀ j, u j = Except.ok []) →
        fetchDiscover f u ss = (Except.ok [], if ss then 6 else 0, 6))
    ∧ ((∀ j, j < i → f j = Except.ok []) → f i = Except.ok fs → fs ≠ [] →
        i < 6 → fetchDiscover f u true = (Except.ok fs, i + 1, 0))
    ∧ ((∀ j, f j = Except.ok []) → (∀ j, j < k → u j = Except.ok []) →
        u k = Except.ok gs → gs ≠ [] → k < 6 →
        fetchDiscover f u ss = (Except.ok gs, if ss then 6 else 0, k + 1))
    ∧ (tryFrom u 0 6).2.2 = 3 * ((tryFrom u 0 6).2.1 - 1) := by
  refine ⟨?_, ?_, ?_, ?_, ?_, tryFrom_delay u 6 0⟩
  · cases ss with
    | false => simp [fetchDiscover]
    | true =>
      have hle := tryFrom_calls_le f 6 0
      rcases hrf : tryFrom f 0 6 with ⟨rfr, rfc, rfd⟩
      rw [hrf] at hle
      cases rfr with
      | error e => simpa [fetchDiscover, hrf] using hle
      | ok files =>
        cases files with
        | nil => simpa [fetchDiscover, hrf] using hle
        | cons a l => simpa [fetchDiscover, hrf] using hle
  · cases ss with
    | false =>
      have hle := tryFrom_calls_le u 6 0
      rcases hru : tryFrom u 0 6 with ⟨rur, ruc, rud⟩
      rw [hru] at hle
      simpa [fetchDiscover, hru] using hle
    | true =>
      have hle := tryFrom_calls_le u 6 0
      rcases hrf : tryFrom f 0 6 with ⟨rfr, rfc, rfd⟩
      rcases hru : tryFrom u 0 6 with ⟨rur, ruc, rud⟩
      rw [hru] at hle
      cases rfr with
      | error e => simp [fetchDiscover, hrf]
      | ok files =>
        cases files with
        | nil => simpa [fetchDiscover, hrf, hru] using hle
        | cons a l => simp [fetchDiscover, hrf]
  · intro hf hu
    cases ss with
    | false => simp [fetchDiscover, tryFrom_all_empty u hu 6 0]
    | true =>
      simp [fetchDiscover, tryFrom_all_empty f hf 6 0,
        tryFrom_all_empty u hu 6 0]
  · intro h0 hi hne hlt
    have hfe : fs.isEmpty = false := by
      cases fs with
      | nil => exact absurd rfl hne
      | cons a l => rfl
    have key := tryFrom_first_nonempty f fs hne i 0 6
      (fun j hj => by simpa using h0 j hj) (by simpa using hi) hlt
    simp [fetchDiscover, key, hfe]
  · intro hf h0 hk hne hlt
    have hge : gs.isEmpty = false := by
      cases gs with
      | nil => exact absurd rfl hne
      | cons a l => rfl
    have key := tryFrom_first_nonempty u gs hne k 0 6
      (fun j hj => by simpa using h0 j hj) (by simpa using hk) hlt
    cases ss with
    | false => simp [fetchDiscover, key]
    | true => simp [fetchDiscover, tryFrom_all_empty f hf 6 0, key]

/-- Witness for C3: a filtered strategy that is empty on its first five
attempts and non-empty on the sixth stops discovery after exactly six calls
with no unfiltered attempt; two always-empty strategies terminate after six
attempts each with an empty, error-free result. -/
theorem fetchArtifacts_retry_policy_witness :
    fetchDiscover (fun j => if j = 5 then Except.ok ["a"] else Except.ok [])
        (fun _ => Except.ok []) true = (Except.ok ["a"], 6, 0)
    ∧ fetchDiscover (fun _ => Except.ok []) (fun _ => Except.ok []) true =
        (Except.ok [], 6, 6) := by
  constructor
  · exact (fetchArtifacts_retry_policy
        (fun j => if j = 5 then Except.ok ["a"] else Except.ok [])
        (fun _ => Except.ok []) true 5 0 ["a"] []).2.2.2.1
      (fun j hj => by simp [show j ≠ 5 by omega])
      (by simp) (by decide) (by decide)
  · exact (fetchArtifacts_retry_policy (fun _ => Except.ok [])
        (fun _ => Except.ok []) true 0 0 [] []).2.2.1
      (fun j => rfl) (fun j => rfl)

/-! ## C6 -/

theorem compilePatterns_malformed (compile : String → Option (String → Bool)) :
    ∀ patterns : List String,
      (∃ p ∈ patterns, goTrimSpace p ≠ "" ∧ compile (goTrimSpace p) = none) →
      ∃ e, compilePatterns compile patterns = Except.error e := by
  intro patterns
  induction patterns with
  | nil =>
    rintro ⟨p, hp, -, -⟩
    exact absurd hp (List.not_mem_nil p)
  | cons q rest ih =>
    rintro ⟨p, hp, hne, hc⟩
    simp only [compilePatterns]
    by_cases hq : goTrimSpace q = ""
    · rw [if_pos hq]
      apply ih
      refine ⟨p, ?_, hne, hc⟩
      rcases List.mem_cons.mp hp with rfl | hmem
      · exact absurd hq hne
      · exact hmem
    · rw [if_neg hq]
      cases hcq : compile (goTrimSpace q) with
      | none => exact ⟨_, rfl⟩
      | some re =>
        have hmem : p ∈ rest := by
          rcases List.mem_cons.mp hp with rfl | hmem
          · rw [hcq] at hc
            exact absurd hc (by simp)
          · exact hmem
        obtain ⟨e, he⟩ := ih ⟨p, hmem, hne, hc⟩
        rw [he]
        exact ⟨e, rfl⟩

theorem fetchDiscover_calls_pos (f u : Nat → Except String (List String))
    (ss : Bool) :
    1 ≤ (fetchDiscover f u ss).2.1 + (fetchDiscover f u ss).2.2 := by
  cases ss with
  | false =>
    have := tryFrom_calls_pos u 0 6 (by omega)
    rcases hru : tryFrom u 0 6 with ⟨rur, ruc, rud⟩
    rw [hru] at this
    simpa [fetchDiscover, hru] using this
  | true =>
    have hf := tryFrom_calls_pos f 0 6 (by omega)
    rcases hrf : tryFrom f 0 6 with ⟨rfr, rfc, rfd⟩
    rw [hrf] at hf
    have hf2 : 1 ≤ rfc := hf
    cases rfr with
    | error e => simpa [fetchDiscover, hrf] using hf2
    | ok files =>
      cases files with
      | nil =>
        rcases hru : tryFrom u 0 6 with ⟨rur, ruc, rud⟩
        simp only [fetchDiscover, hrf, hru, List.isEmpty_nil, if_pos]
        show 1 ≤ rfc + ruc
        omega
      | cons a l => simpa [fetchDiscover, hrf] using hf2

/-- C6 (amended): a malformed filter expression makes the fetch of that
source fail with a fatal error only after the remote listing phase has run
(at least one listing call precedes the error) and only when discovery
yields at least one file; the transfer utility is never invoked in that
case, and when discovery yields no files at all the malformed expression is
not reported — the fetch succeeds with an empty set. -/
theorem fetchArtifacts_malformed_spec
    (compile : String → Option (String → Bool))
    (f u : Nat → Except String (List String))
    (transfer : List String → Except String Unit)
    (remotePath destDir : String) (patterns : List String)
    (ss created dry : Bool)
    (h1 : remotePath ≠ "") (h2 : goHasSlashHead remotePath = true)
    (h3 : destDir ≠ "") (h4 : ss = true → created = true)
    (hmal : ∃ p ∈ patterns,
      goTrimSpace p ≠ "" ∧ compile (goTrimSpace p) = none) :
    (∀ files, (fetchDiscover f u ss).1 = Except.ok files → files ≠ [] →
      (∃ e, fetchArtifacts compile f u transfer remotePath destDir patterns
          ss created dry =
        (Except.error e,
         (fetchDiscover f u ss).2.1 + (fetchDiscover f u ss).2.2, 0))
      ∧ 1 ≤ (fetchDiscover f u ss).2.1 + (fetchDiscover f u ss).2.2)
    ∧ ((fetchDiscover f u ss).1 = Except.ok [] →
      fetchArtifacts compile f u transfer remotePath destDir patterns
          ss created dry =
        (Except.ok [],
         (fetchDiscover f u ss).2.1 + (fetchDiscover f u ss).2.2, 0)) := by
  have h4b : (ss && !created) = false := by
    cases ss with
    | false => rfl
    | true => simp [h4 rfl]
  constructor
  · intro files hdisc hne
    refine ⟨?_, fetchDiscover_calls_pos f u ss⟩
    have hfe : files.isEmpty = false := by
      cases files with
      | nil => exact absurd rfl hne
      | cons a l => rfl
    obtain ⟨e, he⟩ := compilePatterns_malformed compile patterns hmal
    refine ⟨e, ?_⟩
    simp only [fetchArtifacts, if_neg h1, h2, Bool.not_true, h4b,
      Bool.false_eq_true, if_false, if_neg h3, hdisc, hfe, he]
  · intro hdisc
    simp only [fetchArtifacts, if_neg h1, h2, Bool.not_true, h4b,
      Bool.false_eq_true, if_false, if_neg h3, hdisc, List.isEmpty_nil,
      if_pos]

/-- Witness for C6 (amended): with the sole pattern `(` rejected by the
expression compiler and a listing that immediately reports one file, the
fetch errors after exactly one remote listing call and no transfer. -/
theorem fetchArtifacts_malformed_spec_witness :
    ∃ e, fetchArtifacts (fun _ => none) (fun _ => Except.ok ["out.txt"])
        (fun _ => Except.ok ["out.txt"]) (fun _ => Except.ok ())
        "/data" "dest" ["("] false true false = (Except.error e, 1, 0) :=
  ((fetchArtifacts_malformed_spec (fun _ => none)
      (fun _ => Except.ok ["out.txt"]) (fun _ => Except.ok ["out.txt"])
      (fun _ => Except.ok ()) "/data" "dest" ["("] false true false
      (by decide) (by decide) (by decide) (fun h => rfl)
      ⟨"(", by simp, by decide, rfl⟩).1 ["out.txt"] rfl (by simp)).1

/-- Counterexample for C6 as stated: with the malformed pattern `(`, a
fetch whose first listing attempt reports a file performs one remote
listing call BEFORE failing on the pattern (the claim requires zero remote
I/O before the error), and a fetch whose listings are all empty performs
twelve listing calls and never reports the malformed pattern at all. -/
theorem fetchArtifacts_malformed_counterexample :
    fetchArtifacts (fun _ => none) (fun _ => Except.ok ["out.txt"])
        (fun _ => Except.ok ["out.txt"]) (fun _ => Except.ok ())
        "/data" "dest" ["("] false true false =
      (Except.error "compile pattern (", 1, 0)
    ∧ (1 : Nat) ≠ 0
    ∧ fetchArtifacts (fun _ => none) (fun _ => Except.ok [])
        (fun _ => Except.ok []) (fun _ => Except.ok ())
        "/data" "dest" ["("] false true false = (Except.ok [], 6, 0) := by
  refine ⟨rfl, by decide, rfl⟩

end Exp




